import Mathlib

/-!
Shallow embedding of the chainbox execution fabric (TypeScript sources) in
Lean 4, covering the RateLimiter, RequestSigner, CircuitBreaker, Mesh
transport, PolicyEngine and Executor pipeline, together with theorems that
settle the specification claims about them.

Conventions of the embedding:
* Machine time (`Date.now()`) is passed explicitly as an `Int` parameter
  named `now`; a single invocation of a modelled operation sees one `now`.
* Mutable singleton state (rate-limit buckets, circuit stats, planner
  health) is threaded explicitly: each operation takes the state before
  and returns the state after.
* JavaScript exceptions are modelled with `Except`; a thrown plain object
  is modelled by the record of the fields the code inspects.
-/

namespace Chainbox

/-- Structured error: the fields of `ChainboxError` that the modelled
control flow inspects (`code`) plus the human message. -/
structure CbError where
  code : String
  message : String
deriving Repr, DecidableEq

/-! ## RateLimiter (src/core/RateLimiter.ts) -/

/-- `RateLimitConfig`: limits for a key. -/
structure RateLimitConfig where
  maxRequests : Nat
  windowMs : Int
deriving Repr, DecidableEq

/-- `RateLimitBucket`: usage within a time window. -/
structure RateLimitBucket where
  count : Nat
  windowStart : Int
deriving Repr, DecidableEq

/-- `RateLimiter.BuildKey`: `identityId ? identityId:fnName : anonymous:fnName`. -/
def BuildKey (fnName : String) (identityId : Option String) : String :=
  match identityId with
  | some i => i ++ ":" ++ fnName
  | none => "anonymous:" ++ fnName

/-- `RateLimiter.IsAllowed`, acting on the bucket stored for the key
(`none` when the map has no entry).  Returns the decision and the bucket
that is stored in the map afterwards.  A new bucket is created when none
exists or the window expired (`now - windowStart > windowMs`); the count
is incremented exactly when the call is allowed. -/
def IsAllowed (limit : RateLimitConfig) (now : Int) (b : Option RateLimitBucket) :
    Bool × RateLimitBucket :=
  let bucket : RateLimitBucket :=
    match b with
    | some bk => if now - bk.windowStart > limit.windowMs then ⟨0, now⟩ else bk
    | none => ⟨0, now⟩
  if bucket.count ≥ limit.maxRequests then
    (false, bucket)
  else
    (true, { bucket with count := bucket.count + 1 })

/-- `RateLimiter.GetRemaining`: `maxRequests` if no bucket or expired,
else `max 0 (maxRequests - count)` (the `max 0` is Nat subtraction). -/
def GetRemaining (limit : RateLimitConfig) (now : Int) (b : Option RateLimitBucket) : Nat :=
  match b with
  | none => limit.maxRequests
  | some bk =>
    if now - bk.windowStart > limit.windowMs then limit.maxRequests
    else limit.maxRequests - bk.count

/-- `RateLimiter.GetResetTime`: `0` if no bucket, else
`max 0 (windowStart + windowMs - now)`. -/
def GetResetTime (limit : RateLimitConfig) (now : Int) (b : Option RateLimitBucket) : Int :=
  match b with
  | none => 0
  | some bk => max 0 (bk.windowStart + limit.windowMs - now)

/-- The error object thrown by `RateLimiter.Enforce`. -/
structure RateLimitError where
  error : String
  remaining : Nat
  resetMs : Int
deriving Repr, DecidableEq

/-- `RateLimiter.Enforce`: throws `RATE_LIMITED` when `IsAllowed` denies;
`resetMs` is read from `GetResetTime` after `IsAllowed` updated the map. -/
def Enforce (limit : RateLimitConfig) (now : Int) (b : Option RateLimitBucket) :
    Except RateLimitError RateLimitBucket :=
  let r := IsAllowed limit now b
  if r.1 then .ok r.2
  else .error ⟨"RATE_LIMITED", 0, GetResetTime limit now (some r.2)⟩

/-- Folding a list of `IsAllowed` calls (one per timestamp, oldest first)
over the stored bucket; returns the decisions and the final bucket. -/
def RunCalls (limit : RateLimitConfig) (b : Option RateLimitBucket) :
    List Int → List Bool × Option RateLimitBucket
  | [] => ([], b)
  | t :: ts =>
    let r := IsAllowed limit t b
    let rest := RunCalls limit (some r.2) ts
    (r.1 :: rest.1, rest.2)

/-! ## RequestSigner (src/core/RequestSigner.ts) -/

/-- Result of `RequestSigner.Verify` (the `valid`/`error` pair). -/
inductive VerifyResult where
  | valid
  | expired
  | fromFuture
  | invalidSignature
deriving Repr, DecidableEq

/-- The signed message: `timestamp:JSON.stringify(payload)`.  The payload
is modelled by its serialization `p`. -/
def signMessage (timestamp : Int) (p : String) : String :=
  toString timestamp ++ ":" ++ p

/-- `RequestSigner.Sign`, parametric in the HMAC-SHA256 primitive
`hmac secret message`.  With no secret configured the signature is the
empty string; otherwise it is the HMAC of the timestamped message. -/
def Sign (hmac : String → String → String) (secret : Option String) (now : Int)
    (p : String) : String × Int :=
  match secret with
  | none => ("", now)
  | some s => (hmac s (signMessage now p), now)

/-- `RequestSigner.Verify`, parametric in the HMAC primitive.  Checks, in
order: no secret configured (accept), age above TTL (reject `expired`),
negative age (reject `fromFuture`), then constant-time comparison of the
expected HMAC against the presented signature (both are equal-length hex
digests, so the comparison is equality). -/
def Verify (hmac : String → String → String) (secret : Option String) (ttlMs : Int)
    (now : Int) (p : String) (signature : String) (timestamp : Int) : VerifyResult :=
  match secret with
  | none => .valid
  | some s =>
    let age := now - timestamp
    if age > ttlMs then .expired
    else if age < 0 then .fromFuture
    else if signature = hmac s (signMessage timestamp p) then .valid
    else .invalidSignature

/-! ## CircuitBreaker and Mesh transport (src/transport/Mesh.ts) -/

/-- `CircuitState`. -/
inductive CircuitState where
  | closed
  | open
  | halfOpen
deriving Repr, DecidableEq

/-- `CircuitBreakerStats` for one node. -/
structure Circuit where
  state : CircuitState
  failures : Nat
  successes : Nat
  lastFailure : Int
  lastStateChange : Int
deriving Repr, DecidableEq

/-- `CIRCUIT_CONFIG` (environment-tunable thresholds). -/
structure CircuitConfig where
  threshold : Nat
  timeoutMs : Int
  successThreshold : Nat
deriving Repr, DecidableEq

/-- A freshly created circuit (`GetCircuit` on an unknown node at time `now`). -/
def freshCircuit (now : Int) : Circuit :=
  ⟨.closed, 0, 0, 0, now⟩

/-- `CircuitBreaker.IsAllowed`: CLOSED and HALF_OPEN admit; OPEN admits
(and transitions to HALF_OPEN, resetting successes) only once
`now - lastStateChange > timeoutMs`.  Returns the decision and the
(possibly updated) circuit. -/
def CircuitIsAllowed (cfg : CircuitConfig) (now : Int) (c : Circuit) : Bool × Circuit :=
  match c.state with
  | .closed => (true, c)
  | .open =>
    if now - c.lastStateChange > cfg.timeoutMs then
      (true, { c with state := .halfOpen, lastStateChange := now, successes := 0 })
    else (false, c)
  | .halfOpen => (true, c)

/-- `CircuitBreaker.RecordFailure`: increments `failures`, stamps
`lastFailure`; HALF_OPEN opens immediately, CLOSED opens when
`failures ≥ threshold`. -/
def RecordFailure (cfg : CircuitConfig) (now : Int) (c : Circuit) : Circuit :=
  let c1 := { c with failures := c.failures + 1, lastFailure := now }
  match c1.state with
  | .halfOpen => { c1 with state := .open, lastStateChange := now }
  | .closed =>
    if c1.failures ≥ cfg.threshold then { c1 with state := .open, lastStateChange := now }
    else c1
  | .open => c1

/-- `CircuitBreaker.RecordSuccess`: in HALF_OPEN, counts successes and
closes at `successThreshold`; in CLOSED, resets the failure count. -/
def RecordSuccess (cfg : CircuitConfig) (now : Int) (c : Circuit) : Circuit :=
  match c.state with
  | .halfOpen =>
    let c1 := { c with successes := c.successes + 1 }
    if c1.successes ≥ cfg.successThreshold then
      { c1 with state := .closed, failures := 0, lastStateChange := now }
    else c1
  | .closed => { c with failures := 0 }
  | .open => c

/-- The fields of a thrown JavaScript error that `Mesh.Call` inspects in
its catch block (`error.code`, `error.name`). -/
structure JsErr where
  code : Option String
  name : Option String
deriving Repr, DecidableEq

/-- The transport-failure test of `Mesh.Call`'s catch block: connection
refused, timeout, fetch `TypeError`, or undici socket error. -/
def isTransportFailure (e : JsErr) : Bool :=
  e.code == some "ECONNREFUSED" || e.code == some "ETIMEDOUT" ||
  e.name == some "TypeError" || e.code == some "UND_ERR_SOCKET"

/-- Outcome of one network attempt inside `Mesh.Call`: an HTTP response
(with status code, decoded body data and, for error bodies, the fields
the catch block would inspect), or a network-level error. -/
inductive AttemptOutcome where
  | response (status : Nat) (data : String) (bodyErr : JsErr)
  | netError (e : JsErr)
deriving Repr, DecidableEq

/-- The error thrown by an attempt, if any: network errors are thrown by
the request itself, and a response with `statusCode ≥ 400` throws its
decoded body. -/
def attemptThrown : AttemptOutcome → Option JsErr
  | .response status _ bodyErr => if status ≥ 400 then some bodyErr else none
  | .netError e => some e

/-- The data returned by a successful attempt. -/
def attemptData : AttemptOutcome → Option String
  | .response status data _ => if status ≥ 400 then none else some data
  | .netError _ => none

/-- Mesh-level state touched by one call: the node's circuit and its
Planner health flag. -/
structure MeshNodeState where
  circuit : Circuit
  healthy : Bool
deriving Repr, DecidableEq

/-- Errors thrown by `Mesh.Call` itself. -/
inductive MeshError where
  | circuitOpen
  | callFailed (attempts : Nat) (circuitState : CircuitState)
deriving Repr, DecidableEq

/-- Result of a modelled `Mesh.Call`: the outcome, the final node state,
the number of network attempts actually made, and the backoff delays
slept between attempts. -/
structure MeshCallResult where
  result : Except MeshError String
  st : MeshNodeState
  networkAttempts : Nat
  delays : List Int
deriving Repr

/-- `Mesh.MAX_RETRIES`. -/
def MAX_RETRIES : Nat := 3

/-- `Mesh.BASE_DELAY_MS`. -/
def BASE_DELAY_MS : Int := 100

/-- The catch-block state update of `Mesh.Call`: a transport failure
records a circuit failure and marks the node unhealthy in the Planner;
any other thrown error (in particular an HTTP ≥ 400 body) leaves both
untouched. -/
def failureStep (cfg : CircuitConfig) (now : Int) (st : MeshNodeState) (e : JsErr) :
    MeshNodeState :=
  if isTransportFailure e then ⟨RecordFailure cfg now st.circuit, false⟩ else st

/-- The retry loop of `Mesh.Call` (`for attempt in 0..MAX_RETRIES-1`).
`outcomes n` is what the network does on attempt `n`.  On success the
circuit records a success and the node is marked healthy; on a thrown
error, `failureStep` runs, then the loop stops early (`break`) when the
circuit no longer admits, else sleeps `BASE_DELAY_MS * 2^attempt` before
the next attempt.  `fuel` is `MAX_RETRIES - attempt`. -/
def meshLoop (cfg : CircuitConfig) (now : Int) (outcomes : Nat → AttemptOutcome) :
    Nat → Nat → MeshNodeState → List Int → Nat → MeshCallResult
  | 0, _, st, delays, net => ⟨.error (.callFailed MAX_RETRIES st.circuit.state), st, net, delays⟩
  | fuel + 1, attempt, st, delays, net =>
    match attemptThrown (outcomes attempt) with
    | none =>
      ⟨.ok ((attemptData (outcomes attempt)).getD ""),
       ⟨RecordSuccess cfg now st.circuit, true⟩, net + 1, delays⟩
    | some e =>
      let st1 := failureStep cfg now st e
      let adm := CircuitIsAllowed cfg now st1.circuit
      let st2 : MeshNodeState := ⟨adm.2, st1.healthy⟩
      if adm.1 then
        if attempt + 1 < MAX_RETRIES then
          meshLoop cfg now outcomes fuel (attempt + 1) st2
            (delays ++ [BASE_DELAY_MS * 2 ^ attempt]) (net + 1)
        else ⟨.error (.callFailed MAX_RETRIES st2.circuit.state), st2, net + 1, delays⟩
      else ⟨.error (.callFailed MAX_RETRIES st2.circuit.state), st2, net + 1, delays⟩

/-- `Mesh.Call` for one node: first consult the circuit breaker and fail
fast with `CIRCUIT_OPEN` (no network attempt) when it rejects, else run
the retry loop. -/
def MeshCall (cfg : CircuitConfig) (now : Int) (st : MeshNodeState)
    (outcomes : Nat → AttemptOutcome) : MeshCallResult :=
  let adm := CircuitIsAllowed cfg now st.circuit
  if adm.1 then meshLoop cfg now outcomes MAX_RETRIES 0 ⟨adm.2, st.healthy⟩ [] 0
  else ⟨.error .circuitOpen, ⟨adm.2, st.healthy⟩, 0, []⟩

/-- `RecordFailure` folded over a list of failure times (oldest first). -/
def FoldFailures (cfg : CircuitConfig) (c : Circuit) : List Int → Circuit
  | [] => c
  | t :: ts => FoldFailures cfg (RecordFailure cfg t c) ts

/-! ## Identity, policy (src/core/Authenticator.ts, src/core/Policy.ts) -/

/-- `Identity` (the fields the policy engine inspects).  `role` is
`none` for a missing role; a present empty string is also falsy in the
source's `!identity.role` test. -/
structure Identity where
  id : String
  role : Option String
deriving Repr, DecidableEq

/-- JavaScript falsiness of `identity.role`: missing or empty. -/
def isFalsyRole (r : Option String) : Bool :=
  r.getD "" == ""

/-- Declared permissions of a `CodeSource`. -/
structure Permissions where
  allow : List String
deriving Repr, DecidableEq

/-- `CodeSource` (the fields the executor's local path inspects). -/
structure CodeSource where
  permissions : Option Permissions
  handlerPresent : Bool
  isWasm : Bool
deriving Repr, DecidableEq

/-- `PolicyEngine.Enforce`: when the source declares a non-empty `allow`
list, require a present identity, a truthy role, and membership of the
role in `allow`; each violation throws `FORBIDDEN`.  A missing
`permissions` field or an empty `allow` list skips every check. -/
def PolicyEnforce (identity : Option Identity) (source : CodeSource) :
    Except CbError Unit :=
  match source.permissions with
  | some perms =>
    if perms.allow.length > 0 then
      match identity with
      | none => .error ⟨"FORBIDDEN", "Authentication required"⟩
      | some idy =>
        if isFalsyRole idy.role then .error ⟨"FORBIDDEN", "Identity has no role"⟩
        else if perms.allow.contains (idy.role.getD "") then .ok ()
        else .error ⟨"FORBIDDEN", "Role is not allowed"⟩
    else .ok ()
  | none => .ok ()

/-! ## Executor pipeline (src/core/Executor.ts, `_InternalExecute`) -/

/-- `TraceFrame`: one node of the execution trace tree. -/
structure TraceFrame where
  fn : String
  identity : Option String
  status : Option String
  outcome : Option String
  cached : Bool
  children : List TraceFrame

/-- A JavaScript value appearing as a field of a result object: opaque
handler data, a trace array (`trace` key), or a trace node (`_trace`). -/
inductive JVal where
  | prim (s : String)
  | traceArr (ts : List TraceFrame)
  | traceNode (t : TraceFrame)

/-- A JavaScript object as a field map. -/
def JObj := List (String × JVal)

/-- Spread-override `\x7b ...o, k: v \x7d`: the result binds `k` to `v`
and keeps every other field of `o`. -/
def objSet (o : JObj) (k : String) (v : JVal) : JObj :=
  o.filter (fun kv => kv.1 ≠ k) ++ [(k, v)]

/-- Whether key `k` is present on the object. -/
def objHas (o : JObj) (k : String) : Bool :=
  o.any (fun kv => kv.1 == k)

/-- `ExecutionFrame`: the per-invocation budget record. -/
structure ExecutionFrame where
  depth : Nat
  maxDepth : Nat
  startTime : Int
  timeoutMs : Int
deriving Repr, DecidableEq

/-- `Executor.DEFAULTS`. -/
def DEFAULT_MAX_DEPTH : Nat := 20

/-- `Executor.DEFAULTS.timeoutMs`. -/
def DEFAULT_TIMEOUT_MS : Int := 3000

/-- Frame derivation at the top of `_InternalExecute`: a root call gets
`depth = 1` and the defaults; a nested call copies the parent frame with
`depth + 1`, resetting `startTime` to `now` only on a mesh node. -/
def deriveFrame (isRemoteNode : Bool) (now : Int) :
    Option ExecutionFrame → ExecutionFrame
  | some pf =>
    { pf with depth := pf.depth + 1,
              startTime := if isRemoteNode then now else pf.startTime }
  | none => ⟨1, DEFAULT_MAX_DEPTH, now, DEFAULT_TIMEOUT_MS⟩

/-- `ExecutionPlan`. -/
inductive ExecutionPlan where
  | localTarget
  | remoteTarget (nodeId : String)
deriving Repr, DecidableEq

/-- The collaborators of one `_InternalExecute` run, as oracles: what the
cache, planner, registry, runtime race and mesh would answer.  `now` is
`Date.now()` at entry.  The `onStart` hook (telemetry, and root-only
rate-limit/tenant enforcement, modelled in the RateLimiter section) runs
before these steps and is assumed not to throw here. -/
structure ExecEnv where
  isRemoteNode : Bool
  production : Bool
  now : Int
  cached : Option JObj
  plan : ExecutionPlan
  source : Except CbError CodeSource
  handlerResult : Except CbError JObj
  remoteResult : Except CbError JObj

/-- Observable outcome of one `_InternalExecute` run: the returned value
or thrown error, the `outcome` tag the pipeline itself wrote on the
current trace frame (`none` when left to the handler / failure hook),
and which stages were reached. -/
structure ExecOut where
  result : Except CbError JObj
  outcomeTag : Option String
  planned : Bool
  resolved : Bool
  policyChecked : Bool
  handlerRan : Bool
  remoteCalled : Bool

/-- The trace node returned on a cache hit (`status=success`,
`outcome=SUCCESS`, `cached=true`). -/
def cacheHitTrace (fnName : String) (identity : Option Identity) : TraceFrame :=
  ⟨fnName, identity.map (·.id), some "success", some "SUCCESS", true, []⟩

/-- The current trace node as attached to a successful local result; its
`outcome`/`children` are filled during handler execution, which the model
leaves abstract. -/
def localTrace (fnName : String) (identity : Option Identity) : TraceFrame :=
  ⟨fnName, identity.map (·.id), some "success", none, false, []⟩

/-- `_InternalExecute`, step by step in source order: derive the frame;
depth gate; cache probe (a hit returns `cachedResult` with
`trace: [currentTrace]` spliced on, on every path); budget gate
(`elapsed > timeoutMs`, strict); plan unless `forceLocal` or running on a
mesh node; remote dispatch returning the mesh result unchanged; or the
local path: resolve, policy check, handler presence check, run the
handler under the timeout race, then shape the return value — production
root returns the bare handler result, development root attaches
`trace: [currentTrace]`, nested calls attach `_trace`. -/
def InternalExecute (env : ExecEnv) (fnName : String) (identity : Option Identity)
    (parentFrame : Option ExecutionFrame) (forceLocal : Bool) : ExecOut :=
  let frame := deriveFrame env.isRemoteNode env.now parentFrame
  if frame.depth > frame.maxDepth then
    ⟨.error ⟨"MAX_CALL_DEPTH_EXCEEDED", "Recursion depth exceeded"⟩,
     some "FAILURE", false, false, false, false, false⟩
  else
    match env.cached with
    | some cachedResult =>
      ⟨.ok (objSet cachedResult "trace" (.traceArr [cacheHitTrace fnName identity])),
       some "SUCCESS", false, false, false, false, false⟩
    | none =>
      let elapsed := env.now - frame.startTime
      if elapsed > frame.timeoutMs then
        ⟨.error ⟨"EXECUTION_TIMEOUT", "Execution timed out before starting"⟩,
         some "TIMEOUT", false, false, false, false, false⟩
      else
        let planned := !(forceLocal || env.isRemoteNode)
        let plan := if forceLocal || env.isRemoteNode then .localTarget else env.plan
        match plan with
        | .remoteTarget _ =>
          (match env.remoteResult with
           | .ok r => ⟨.ok r, none, planned, false, false, false, true⟩
           | .error e => ⟨.error e, none, planned, false, false, false, true⟩)
        | .localTarget =>
          match env.source with
          | .error e => ⟨.error e, none, planned, true, false, false, false⟩
          | .ok src =>
            match PolicyEnforce identity src with
            | .error e => ⟨.error e, none, planned, true, true, false, false⟩
            | .ok _ =>
              if !src.handlerPresent && !src.isWasm then
                ⟨.error ⟨"INTERNAL_ERROR", "Dynamic execution from strings is not supported"⟩,
                 none, planned, true, true, false, false⟩
              else
                match env.handlerResult with
                | .error e => ⟨.error e, none, planned, true, true, true, false⟩
                | .ok result =>
                  if env.production && parentFrame.isNone then
                    ⟨.ok result, none, planned, true, true, true, false⟩
                  else if parentFrame.isNone then
                    ⟨.ok (objSet result "trace" (.traceArr [localTrace fnName identity])),
                     none, planned, true, true, true, false⟩
                  else
                    ⟨.ok (objSet result "_trace" (.traceNode (localTrace fnName identity))),
                     none, planned, true, true, true, false⟩

/-! ## Executor retry loop (src/core/Executor.ts, `Execute`) -/

/-- The non-retryable codes of `Execute`'s catch clause. -/
def nonRetryable (code : String) : Bool :=
  code == "FORBIDDEN" || code == "MAX_CALL_DEPTH_EXCEEDED" || code == "ACCESS_DENIED"

/-- The `while attempts < maxAttempts` loop of `Execute`.  `run n` is the
outcome of the `n`-th `_InternalExecute` attempt (already normalised to a
`ChainboxError`); `fuel = maxAttempts - attempts`.  Returns the final
outcome and the number of attempts made: an error is rethrown when the
budget is exhausted or its code is non-retryable, otherwise the loop
continues. -/
def ExecuteFrom {α : Type} (run : Nat → Except CbError α) :
    Nat → Nat → Except CbError α × Nat
  | attempts, 0 => (.error ⟨"EXECUTION_ERROR", "no attempt budget"⟩, attempts)
  | attempts, fuel + 1 =>
    match run (attempts + 1) with
    | .ok v => (.ok v, attempts + 1)
    | .error e =>
      if fuel == 0 || nonRetryable e.code then (.error e, attempts + 1)
      else ExecuteFrom run (attempts + 1) fuel

/-- `Executor.Execute`'s retry wrapper: `maxAttempts = retries + 1`. -/
def ExecuteModel {α : Type} (retries : Nat) (run : Nat → Except CbError α) :
    Except CbError α × Nat :=
  ExecuteFrom run 0 (retries + 1)

/-! ## Lemmas about the retry loop -/

theorem executeFrom_ge {α : Type} (run : Nat → Except CbError α) :
    ∀ (fuel attempts : Nat), attempts ≤ (ExecuteFrom run attempts fuel).2
  | 0, attempts => le_refl _
  | fuel + 1, attempts => by
    unfold ExecuteFrom
    cases run (attempts + 1) with
    | ok v => exact Nat.le_succ _
    | error e =>
      by_cases h : (fuel == 0 || nonRetryable e.code) = true
      · simp [h]
      · simp only [h, if_false]
        exact le_trans (Nat.le_succ _) (executeFrom_ge run fuel (attempts + 1))

theorem executeFrom_attempts {α : Type} (run : Nat → Except CbError α)
    (fuel attempts : Nat) (h : 1 ≤ fuel) :
    attempts + 1 ≤ (ExecuteFrom run attempts fuel).2 := by
  obtain ⟨fuel', rfl⟩ : ∃ k, fuel = k + 1 := ⟨fuel - 1, by omega⟩
  unfold ExecuteFrom
  cases run (attempts + 1) with
  | ok v => exact le_refl _
  | error e =>
    by_cases hc : (fuel' == 0 || nonRetryable e.code) = true
    · simp [hc]
    · simp only [hc, if_false]
      exact executeFrom_ge run fuel' (attempts + 1)

theorem executeModel_terminal {α : Type} (retries : Nat) (run : Nat → Except CbError α)
    (e : CbError) (h1 : run 1 = .error e) (hterm : nonRetryable e.code = true) :
    ExecuteModel retries run = (.error e, 1) := by
  unfold ExecuteModel ExecuteFrom
  simp [h1, hterm]

/-! ## Lemmas about the rate limiter -/

theorem isAllowed_hit (limit : RateLimitConfig) (now : Int) (bk : RateLimitBucket)
    (h1 : ¬ now - bk.windowStart > limit.windowMs) (h2 : bk.count < limit.maxRequests) :
    IsAllowed limit now (some bk) = (true, ⟨bk.count + 1, bk.windowStart⟩) := by
  simp [IsAllowed, h1, Nat.not_le.mpr h2]

theorem isAllowed_denied (limit : RateLimitConfig) (now : Int) (bk : RateLimitBucket)
    (h1 : ¬ now - bk.windowStart > limit.windowMs) (h2 : bk.count ≥ limit.maxRequests) :
    IsAllowed limit now (some bk) = (false, bk) := by
  simp [IsAllowed, h1, h2]

theorem isAllowed_fresh (limit : RateLimitConfig) (now : Int)
    (h : 1 ≤ limit.maxRequests) :
    IsAllowed limit now none = (true, ⟨1, now⟩) := by
  simp [IsAllowed, Nat.not_le.mpr h]

theorem runCalls_accepts (limit : RateLimitConfig) :
    ∀ (ts : List Int) (k : Nat) (w : Int),
      (∀ t ∈ ts, t - w ≤ limit.windowMs) → k + ts.length ≤ limit.maxRequests →
      RunCalls limit (some ⟨k, w⟩) ts =
        (List.replicate ts.length true, some ⟨k + ts.length, w⟩)
  | [], k, w, _, _ => by simp [RunCalls]
  | t :: ts, k, w, hw, hk => by
    have hnotexp : ¬ t - w > limit.windowMs := not_lt.mpr (hw t (by simp))
    have hcnt : k < limit.maxRequests := by
      have hlen := hk
      simp only [List.length_cons] at hlen
      omega
    have hstep := isAllowed_hit limit t ⟨k, w⟩ hnotexp hcnt
    have hrest := runCalls_accepts limit ts (k + 1) w
      (fun u hu => hw u (by simp [hu])) (by simp at hk ⊢; omega)
    simp only [RunCalls, hstep, hrest, List.length_cons, List.replicate_succ]
    have harith : k + 1 + ts.length = k + (ts.length + 1) := by omega
    rw [harith]

theorem runCalls_exhaust (limit : RateLimitConfig) (t1 : Int) (rest : List Int)
    (hw : ∀ t ∈ rest, t - t1 ≤ limit.windowMs)
    (hk : rest.length + 1 ≤ limit.maxRequests) :
    RunCalls limit none (t1 :: rest) =
      (List.replicate (rest.length + 1) true, some ⟨rest.length + 1, t1⟩) := by
  have hfresh := isAllowed_fresh limit t1 (by omega)
  have hrest := runCalls_accepts limit rest 1 t1 hw (by omega)
  simp only [RunCalls, hfresh, hrest, List.replicate_succ]
  have harith : 1 + rest.length = rest.length + 1 := by omega
  rw [harith]

/-! ## Lemmas about the circuit breaker and mesh loop -/

theorem recordFailure_open_stays (cfg : CircuitConfig) (now : Int) (c : Circuit)
    (h : c.state = .open) :
    RecordFailure cfg now c = { c with failures := c.failures + 1, lastFailure := now } := by
  simp [RecordFailure, h]

theorem recordFailure_closed_opens (cfg : CircuitConfig) (now : Int) (c : Circuit)
    (h : c.state = .closed) (hth : cfg.threshold ≤ c.failures + 1) :
    RecordFailure cfg now c =
      { c with failures := c.failures + 1, lastFailure := now,
               state := .open, lastStateChange := now } := by
  simp [RecordFailure, h, hth]

theorem recordFailure_closed_stays (cfg : CircuitConfig) (now : Int) (c : Circuit)
    (h : c.state = .closed) (hth : c.failures + 1 < cfg.threshold) :
    RecordFailure cfg now c = { c with failures := c.failures + 1, lastFailure := now } := by
  simp [RecordFailure, h, Nat.not_le.mpr hth]

theorem foldFailures_open (cfg : CircuitConfig) :
    ∀ (ts : List Int) (c : Circuit), c.state = .open →
      (FoldFailures cfg c ts).state = .open
      ∧ (FoldFailures cfg c ts).lastStateChange = c.lastStateChange
  | [], c, h => ⟨h, rfl⟩
  | t :: ts, c, h => by
    have hrec := recordFailure_open_stays cfg t c h
    have hrest := foldFailures_open cfg ts (RecordFailure cfg t c) (by rw [hrec]; exact h)
    simp only [FoldFailures]
    exact ⟨hrest.1, by rw [hrest.2, hrec]⟩

theorem foldFailures_opens (cfg : CircuitConfig) :
    ∀ (ts : List Int) (c : Circuit), c.state = .closed →
      cfg.threshold ≤ c.failures + ts.length → ts ≠ [] →
      (FoldFailures cfg c ts).state = .open
      ∧ (FoldFailures cfg c ts).lastStateChange ∈ ts
  | [], _, _, _, hne => absurd rfl hne
  | t :: ts, c, hclosed, hth, _ => by
    by_cases hopen : cfg.threshold ≤ c.failures + 1
    · have hrec := recordFailure_closed_opens cfg t c hclosed hopen
      have hrest := foldFailures_open cfg ts (RecordFailure cfg t c) (by rw [hrec])
      simp only [FoldFailures]
      refine ⟨hrest.1, ?_⟩
      rw [hrest.2, hrec]
      exact List.mem_cons_self t ts
    · have hlt : c.failures + 1 < cfg.threshold := by omega
      have hrec := recordFailure_closed_stays cfg t c hclosed hlt
      have hne2 : ts ≠ [] := by
        intro hnil
        subst hnil
        simp at hth
        omega
      have hrest := foldFailures_opens cfg ts (RecordFailure cfg t c)
        (by rw [hrec]; exact hclosed)
        (by
          rw [hrec]
          show cfg.threshold ≤ c.failures + 1 + ts.length
          simp only [List.length_cons] at hth
          omega)
        hne2
      simp only [FoldFailures]
      exact ⟨hrest.1, List.mem_cons_of_mem t hrest.2⟩

theorem circuitIsAllowed_open_within (cfg : CircuitConfig) (now : Int) (c : Circuit)
    (h : c.state = .open) (hwithin : now - c.lastStateChange ≤ cfg.timeoutMs) :
    CircuitIsAllowed cfg now c = (false, c) := by
  simp [CircuitIsAllowed, h, not_lt.mpr hwithin]

theorem circuitIsAllowed_closed (cfg : CircuitConfig) (now : Int) (c : Circuit)
    (h : c.state = .closed) : CircuitIsAllowed cfg now c = (true, c) := by
  simp [CircuitIsAllowed, h]

theorem failureStep_closed (cfg : CircuitConfig) (now : Int) (st : MeshNodeState)
    (e : JsErr) (hclosed : st.circuit.state = .closed)
    (hroom : st.circuit.failures + 1 < cfg.threshold) :
    (failureStep cfg now st e).circuit.state = .closed
    ∧ (failureStep cfg now st e).circuit.failures
        = st.circuit.failures + (if isTransportFailure e then 1 else 0)
    ∧ (failureStep cfg now st e).healthy
        = (if isTransportFailure e then false else st.healthy) := by
  by_cases ht : isTransportFailure e
  · simp [failureStep, ht, recordFailure_closed_stays cfg now st.circuit hclosed hroom,
      hclosed]
  · simp [failureStep, ht, hclosed]

theorem meshLoop_step (cfg : CircuitConfig) (now : Int) (outcomes : Nat → AttemptOutcome)
    (fuel attempt : Nat) (st : MeshNodeState) (delays : List Int) (net : Nat) (e : JsErr)
    (hthrown : attemptThrown (outcomes attempt) = some e)
    (hclosed : (failureStep cfg now st e).circuit.state = .closed)
    (hlt : attempt + 1 < MAX_RETRIES) :
    meshLoop cfg now outcomes (fuel + 1) attempt st delays net =
      meshLoop cfg now outcomes fuel (attempt + 1) (failureStep cfg now st e)
        (delays ++ [BASE_DELAY_MS * 2 ^ attempt]) (net + 1) := by
  have hadm := circuitIsAllowed_closed cfg now (failureStep cfg now st e).circuit hclosed
  simp only [meshLoop, hthrown]
  simp [hadm, hlt]

theorem meshLoop_last (cfg : CircuitConfig) (now : Int) (outcomes : Nat → AttemptOutcome)
    (st : MeshNodeState) (delays : List Int) (net : Nat) (e : JsErr)
    (hthrown : attemptThrown (outcomes 2) = some e)
    (hclosed : (failureStep cfg now st e).circuit.state = .closed) :
    meshLoop cfg now outcomes 1 2 st delays net =
      ⟨.error (.callFailed MAX_RETRIES .closed), failureStep cfg now st e,
       net + 1, delays⟩ := by
  have hadm := circuitIsAllowed_closed cfg now (failureStep cfg now st e).circuit hclosed
  simp only [meshLoop, hthrown]
  simp [hadm, MAX_RETRIES, hclosed]

theorem meshLoop_break (cfg : CircuitConfig) (now : Int) (outcomes : Nat → AttemptOutcome)
    (fuel attempt : Nat) (st : MeshNodeState) (delays : List Int) (net : Nat) (e : JsErr)
    (hthrown : attemptThrown (outcomes attempt) = some e)
    (hadm : CircuitIsAllowed cfg now (failureStep cfg now st e).circuit
             = (false, (failureStep cfg now st e).circuit)) :
    meshLoop cfg now outcomes (fuel + 1) attempt st delays net =
      ⟨.error (.callFailed MAX_RETRIES (failureStep cfg now st e).circuit.state),
       failureStep cfg now st e, net + 1, delays⟩ := by
  simp only [meshLoop, hthrown]
  simp [hadm]

theorem meshCall_closed (cfg : CircuitConfig) (now : Int) (st : MeshNodeState)
    (outcomes : Nat → AttemptOutcome) (h : st.circuit.state = .closed) :
    MeshCall cfg now st outcomes = meshLoop cfg now outcomes MAX_RETRIES 0 st [] 0 := by
  have hadm := circuitIsAllowed_closed cfg now st.circuit h
  simp [MeshCall, hadm]

/-! ## Claim C4 -/

/-- C4: if `threshold` consecutive transport failures are recorded on a
node while its circuit is CLOSED (at times `ts`), and the open-timeout
has not yet elapsed at `now` since any of them, then `Mesh.Call` at `now`
fails with `CIRCUIT_OPEN`, performs zero network attempts, and leaves the
node state untouched. -/
theorem circuit_open_blocks_call (cfg : CircuitConfig) (c0 : Circuit) (ts : List Int)
    (now : Int) (healthy : Bool) (outcomes : Nat → AttemptOutcome)
    (h0 : c0.state = .closed) (hlen : ts.length = cfg.threshold)
    (hth : 1 ≤ cfg.threshold) (hfresh : ∀ u ∈ ts, now - u ≤ cfg.timeoutMs) :
    (MeshCall cfg now ⟨FoldFailures cfg c0 ts, healthy⟩ outcomes).result
        = .error .circuitOpen
    ∧ (MeshCall cfg now ⟨FoldFailures cfg c0 ts, healthy⟩ outcomes).networkAttempts = 0
    ∧ (MeshCall cfg now ⟨FoldFailures cfg c0 ts, healthy⟩ outcomes).st
        = ⟨FoldFailures cfg c0 ts, healthy⟩ := by
  have hne : ts ≠ [] := by
    intro h
    subst h
    simp at hlen
    omega
  have hopen := foldFailures_opens cfg ts c0 h0 (by omega) hne
  have hwithin : now - (FoldFailures cfg c0 ts).lastStateChange ≤ cfg.timeoutMs :=
    hfresh _ hopen.2
  have hadm := circuitIsAllowed_open_within cfg now _ hopen.1 hwithin
  simp [MeshCall, hadm]

/-- C4 witness: threshold 5, open-timeout 30000 ms; five failures at
times 1..5 on a fresh node, then a call at time 100 is rejected with
`CIRCUIT_OPEN` and zero network attempts. -/
theorem circuit_open_blocks_call_witness :
    (MeshCall ⟨5, 30000, 2⟩ 100
        ⟨FoldFailures ⟨5, 30000, 2⟩ (freshCircuit 0) [1, 2, 3, 4, 5], true⟩
        (fun _ => .netError ⟨some "ECONNREFUSED", none⟩)).result
      = .error .circuitOpen
    ∧ (MeshCall ⟨5, 30000, 2⟩ 100
        ⟨FoldFailures ⟨5, 30000, 2⟩ (freshCircuit 0) [1, 2, 3, 4, 5], true⟩
        (fun _ => .netError ⟨some "ECONNREFUSED", none⟩)).networkAttempts = 0
    ∧ (MeshCall ⟨5, 30000, 2⟩ 100
        ⟨FoldFailures ⟨5, 30000, 2⟩ (freshCircuit 0) [1, 2, 3, 4, 5], true⟩
        (fun _ => .netError ⟨some "ECONNREFUSED", none⟩)).st
      = ⟨FoldFailures ⟨5, 30000, 2⟩ (freshCircuit 0) [1, 2, 3, 4, 5], true⟩ :=
  circuit_open_blocks_call ⟨5, 30000, 2⟩ (freshCircuit 0) [1, 2, 3, 4, 5] 100 true
    (fun _ => .netError ⟨some "ECONNREFUSED", none⟩) rfl rfl (by decide) (by decide)

/-! ## Claim C5 -/

/-- C5 counterexample: a `Mesh.Call` whose three attempts all end in an
HTTP 500 response records no failure in the circuit breaker and leaves
the node healthy in the Planner, refuting the claim that HTTP ≥ 400
records a failure and marks the node unhealthy. -/
theorem mesh_http_error_not_recorded_cx :
    (MeshCall ⟨5, 30000, 2⟩ 10 ⟨freshCircuit 0, true⟩
        (fun _ => .response 500 "" ⟨none, none⟩)).st.circuit.failures = 0
    ∧ (MeshCall ⟨5, 30000, 2⟩ 10 ⟨freshCircuit 0, true⟩
        (fun _ => .response 500 "" ⟨none, none⟩)).st.healthy = true
    ∧ (MeshCall ⟨5, 30000, 2⟩ 10 ⟨freshCircuit 0, true⟩
        (fun _ => .response 500 "" ⟨none, none⟩)).networkAttempts = 3
    ∧ (MeshCall ⟨5, 30000, 2⟩ 10 ⟨freshCircuit 0, true⟩
        (fun _ => .response 500 "" ⟨none, none⟩)).delays = [100, 200] := by
  refine ⟨rfl, rfl, rfl, rfl⟩

/-- C5 (amended): in `Mesh.Call`, a failing attempt records a circuit
failure and marks the node unhealthy exactly when it is a transport
error (`ECONNREFUSED`, `ETIMEDOUT`, fetch `TypeError`, `UND_ERR_SOCKET`);
an HTTP ≥ 400 response is retried but records nothing.  Failing attempts
are retried with exponential backoff 100 ms then 200 ms up to 3 total
attempts (while the circuit stays closed), and remaining retries are
skipped when the circuit opens mid-attempt. -/
theorem mesh_failure_recording (cfg : CircuitConfig) (st : MeshNodeState) (now : Int)
    (o0 o1 o2 : AttemptOutcome) (e0 e1 e2 : JsErr) (outs : Nat → AttemptOutcome)
    (houts : outs = fun n => if n = 0 then o0 else if n = 1 then o1 else o2)
    (h0 : attemptThrown o0 = some e0) (h1 : attemptThrown o1 = some e1)
    (h2 : attemptThrown o2 = some e2)
    (hclosed : st.circuit.state = .closed)
    (hroom : st.circuit.failures + 3 < cfg.threshold) :
    (MeshCall cfg now st outs).networkAttempts = 3
    ∧ (MeshCall cfg now st outs).delays = [100, 200]
    ∧ (MeshCall cfg now st outs).result = .error (.callFailed 3 .closed)
    ∧ (MeshCall cfg now st outs).st.circuit.failures
        = st.circuit.failures + ((if isTransportFailure e0 then 1 else 0)
            + (if isTransportFailure e1 then 1 else 0)
            + (if isTransportFailure e2 then 1 else 0))
    ∧ (MeshCall cfg now st outs).st.healthy
        = (if isTransportFailure e0 || isTransportFailure e1 || isTransportFailure e2
           then false else st.healthy)
    ∧ (∀ st' : MeshNodeState, st'.circuit.state = .closed →
        st'.circuit.failures + 1 = cfg.threshold → isTransportFailure e0 = true →
        0 ≤ cfg.timeoutMs →
        (MeshCall cfg now st' outs).networkAttempts = 1
        ∧ (MeshCall cfg now st' outs).st.circuit.state = .open) := by
  subst houts
  have hth0 : attemptThrown ((fun n => if n = 0 then o0 else if n = 1 then o1 else o2) 0)
      = some e0 := by simpa using h0
  have hth1 : attemptThrown ((fun n => if n = 0 then o0 else if n = 1 then o1 else o2) 1)
      = some e1 := by simpa using h1
  have hth2 : attemptThrown ((fun n => if n = 0 then o0 else if n = 1 then o1 else o2) 2)
      = some e2 := by simpa using h2
  have hs1 := failureStep_closed cfg now st e0 hclosed (by omega)
  have hs2 := failureStep_closed cfg now (failureStep cfg now st e0) e1 hs1.1
    (by rw [hs1.2.1]; split <;> omega)
  have hs3 := failureStep_closed cfg now
    (failureStep cfg now (failureStep cfg now st e0) e1) e2 hs2.1
    (by rw [hs2.2.1, hs1.2.1]; split <;> split <;> omega)
  have hcall : MeshCall cfg now st (fun n => if n = 0 then o0 else if n = 1 then o1 else o2)
      = ⟨.error (.callFailed MAX_RETRIES .closed),
         failureStep cfg now (failureStep cfg now (failureStep cfg now st e0) e1) e2,
         3, [100, 200]⟩ := by
    calc MeshCall cfg now st (fun n => if n = 0 then o0 else if n = 1 then o1 else o2)
        = meshLoop cfg now (fun n => if n = 0 then o0 else if n = 1 then o1 else o2)
            MAX_RETRIES 0 st [] 0 :=
          meshCall_closed cfg now st _ hclosed
      _ = meshLoop cfg now (fun n => if n = 0 then o0 else if n = 1 then o1 else o2)
            2 1 (failureStep cfg now st e0) ([] ++ [BASE_DELAY_MS * 2 ^ 0]) 1 :=
          meshLoop_step cfg now _ 2 0 st [] 0 e0 hth0 hs1.1 (by decide)
      _ = meshLoop cfg now (fun n => if n = 0 then o0 else if n = 1 then o1 else o2)
            1 2 (failureStep cfg now (failureStep cfg now st e0) e1)
            (([] ++ [BASE_DELAY_MS * 2 ^ 0]) ++ [BASE_DELAY_MS * 2 ^ 1]) 2 :=
          meshLoop_step cfg now _ 1 1 (failureStep cfg now st e0)
            ([] ++ [BASE_DELAY_MS * 2 ^ 0]) 1 e1 hth1 hs2.1 (by decide)
      _ = ⟨.error (.callFailed MAX_RETRIES .closed),
            failureStep cfg now (failureStep cfg now (failureStep cfg now st e0) e1) e2,
            3, (([] ++ [BASE_DELAY_MS * 2 ^ 0]) ++ [BASE_DELAY_MS * 2 ^ 1])⟩ :=
          meshLoop_last cfg now _ (failureStep cfg now (failureStep cfg now st e0) e1)
            (([] ++ [BASE_DELAY_MS * 2 ^ 0]) ++ [BASE_DELAY_MS * 2 ^ 1]) 2 e2 hth2 hs3.1
      _ = ⟨.error (.callFailed MAX_RETRIES .closed),
            failureStep cfg now (failureStep cfg now (failureStep cfg now st e0) e1) e2,
            3, [100, 200]⟩ := by norm_num [BASE_DELAY_MS]
  rw [hcall]
  refine ⟨rfl, rfl, rfl, ?_, ?_, ?_⟩
  · rw [hs3.2.1, hs2.2.1, hs1.2.1]
    split <;> split <;> split <;> omega
  · rw [hs3.2.2, hs2.2.2, hs1.2.2]
    by_cases t0 : isTransportFailure e0 <;> by_cases t1 : isTransportFailure e1 <;>
      by_cases t2 : isTransportFailure e2 <;> simp [t0, t1, t2]
  · intro st' hclosed' hthr ht0 htmo
    have hrec := recordFailure_closed_opens cfg now st'.circuit hclosed' (by omega)
    have hfs : failureStep cfg now st' e0
        = ⟨RecordFailure cfg now st'.circuit, false⟩ := by
      simp [failureStep, ht0]
    have hopenSt : (failureStep cfg now st' e0).circuit.state = .open := by
      rw [hfs, hrec]
    have hlsc : (failureStep cfg now st' e0).circuit.lastStateChange = now := by
      rw [hfs, hrec]
    have hadm' := circuitIsAllowed_open_within cfg now (failureStep cfg now st' e0).circuit
      hopenSt (by rw [hlsc]; omega)
    have hadm0' := circuitIsAllowed_closed cfg now st'.circuit hclosed'
    have hcall' : MeshCall cfg now st'
        (fun n => if n = 0 then o0 else if n = 1 then o1 else o2)
        = ⟨.error (.callFailed MAX_RETRIES (failureStep cfg now st' e0).circuit.state),
           failureStep cfg now st' e0, 1, []⟩ :=
      calc MeshCall cfg now st' (fun n => if n = 0 then o0 else if n = 1 then o1 else o2)
          = meshLoop cfg now (fun n => if n = 0 then o0 else if n = 1 then o1 else o2)
              MAX_RETRIES 0 st' [] 0 :=
            meshCall_closed cfg now st' _ hclosed'
        _ = ⟨.error (.callFailed MAX_RETRIES (failureStep cfg now st' e0).circuit.state),
             failureStep cfg now st' e0, 1, []⟩ :=
            meshLoop_break cfg now _ 2 0 st' [] 0 e0 hth0 hadm'
    rw [hcall']
    exact ⟨rfl, hopenSt⟩

/-- C5 witness: threshold 5 on a fresh node; attempts end in
ECONNREFUSED, HTTP 500, fetch TypeError: three attempts with backoff
100 ms and 200 ms, exactly the two transport errors recorded, node
unhealthy; and on a node one failure short of threshold, the circuit
opens mid-call and only one attempt is made. -/
theorem mesh_failure_recording_witness :
    (MeshCall ⟨5, 30000, 2⟩ 10 ⟨freshCircuit 0, true⟩
        (fun n => if n = 0 then AttemptOutcome.netError ⟨some "ECONNREFUSED", none⟩
          else if n = 1 then AttemptOutcome.response 500 "" ⟨none, none⟩
          else AttemptOutcome.netError ⟨none, some "TypeError"⟩)).st.circuit.failures = 2
    ∧ (MeshCall ⟨5, 30000, 2⟩ 10 ⟨freshCircuit 0, true⟩
        (fun n => if n = 0 then AttemptOutcome.netError ⟨some "ECONNREFUSED", none⟩
          else if n = 1 then AttemptOutcome.response 500 "" ⟨none, none⟩
          else AttemptOutcome.netError ⟨none, some "TypeError"⟩)).delays = [100, 200]
    ∧ (MeshCall ⟨5, 30000, 2⟩ 10 ⟨⟨.closed, 4, 0, 0, 0⟩, true⟩
        (fun n => if n = 0 then AttemptOutcome.netError ⟨some "ECONNREFUSED", none⟩
          else if n = 1 then AttemptOutcome.response 500 "" ⟨none, none⟩
          else AttemptOutcome.netError ⟨none, some "TypeError"⟩)).networkAttempts = 1 := by
  have h := mesh_failure_recording ⟨5, 30000, 2⟩ ⟨freshCircuit 0, true⟩ 10
    (.netError ⟨some "ECONNREFUSED", none⟩) (.response 500 "" ⟨none, none⟩)
    (.netError ⟨none, some "TypeError"⟩)
    ⟨some "ECONNREFUSED", none⟩ ⟨none, none⟩ ⟨none, some "TypeError"⟩
    _ rfl rfl rfl rfl rfl (by decide)
  refine ⟨?_, h.2.1, ?_⟩
  · rw [h.2.2.2.1]
    decide
  · exact (h.2.2.2.2.2 ⟨⟨.closed, 4, 0, 0, 0⟩, true⟩ rfl rfl (by decide) (by decide)).1

/-! ## Claim C1 -/

/-- C1 counterexample: with `options.retries = 1`, an attempt failing
with `RATE_LIMITED` is retried — the modelled `Execute` loop makes a
second attempt, contradicting the claim that `RATE_LIMITED` is terminal
and re-raised with no further attempt. -/
theorem rateLimited_is_retried_cx :
    (ExecuteModel (α := Unit) 1 (fun _ => .error ⟨"RATE_LIMITED", "Rate limit exceeded"⟩)).2
      = 2 := by
  rfl

/-- C1 (amended): in `Executor.Execute`, only the codes FORBIDDEN,
MAX_CALL_DEPTH_EXCEEDED and ACCESS_DENIED are terminal — a first attempt
failing with one of them is re-raised immediately with exactly one
attempt made; a first attempt failing with any other code (in particular
RATE_LIMITED, TENANT_QUOTA_EXCEEDED, UNAUTHORIZED) is retried whenever
retry budget remains, so at least two attempts run. -/
theorem executor_terminal_codes {α : Type} (retries : Nat)
    (run : Nat → Except CbError α) (e : CbError) (h1 : run 1 = .error e) :
    (nonRetryable e.code = true → ExecuteModel retries run = (.error e, 1))
    ∧ (nonRetryable e.code = false → 1 ≤ retries →
        2 ≤ (ExecuteModel retries run).2) := by
  constructor
  · intro hterm
    exact executeModel_terminal retries run e h1 hterm
  · intro hretry hr
    unfold ExecuteModel ExecuteFrom
    have hne : retries ≠ 0 := by omega
    have hfuel : (retries == 0) = false := by simp [hne]
    simp only [h1, hfuel, hretry, Bool.or_self, if_false]
    exact executeFrom_attempts run retries 1 hr

/-- C1 witness: a FORBIDDEN first attempt with one retry available stops
after exactly one attempt, while a RATE_LIMITED first attempt leads to a
second attempt. -/
theorem executor_terminal_codes_witness :
    ExecuteModel (α := Unit) 1 (fun _ => .error ⟨"FORBIDDEN", "denied"⟩)
      = (.error ⟨"FORBIDDEN", "denied"⟩, 1)
    ∧ 2 ≤ (ExecuteModel (α := Unit) 1 (fun _ => .error ⟨"UNAUTHORIZED", "bad token"⟩)).2 := by
  constructor
  · exact (executor_terminal_codes 1 (fun _ => .error ⟨"FORBIDDEN", "denied"⟩)
      ⟨"FORBIDDEN", "denied"⟩ rfl).1 (by decide)
  · exact (executor_terminal_codes 1 (fun _ => .error ⟨"UNAUTHORIZED", "bad token"⟩)
      ⟨"UNAUTHORIZED", "bad token"⟩ rfl).2 (by decide) (by decide)

/-! ## Claim C9 -/

/-- C9 counterexample: with a limit of 2 requests per 60000 ms and two
accepted calls at time 0, an `Enforce` at time 60000 — still inside the
window by the source's own expiry test — raises RATE_LIMITED but with
`resetMs = 0`, refuting `resetMs > 0`. -/
theorem rateLimiter_resetMs_zero_cx :
    (RunCalls ⟨2, 60000⟩ none [0, 0]).1 = [true, true]
    ∧ Enforce ⟨2, 60000⟩ 60000 (RunCalls ⟨2, 60000⟩ none [0, 0]).2
        = .error ⟨"RATE_LIMITED", 0, 0⟩ := by
  constructor
  · rfl
  · rfl

/-- C9 (amended): after `maxRequests` accepted calls within one window
(first call at `t1`), the next `Enforce` for that key at any `now` still
inside the window raises RATE_LIMITED with
`resetMs = t1 + windowMs - now ≥ 0`; `resetMs` is strictly positive
exactly when `now` lies strictly before the window end
`t1 + windowMs` (it is 0 at the boundary).  The key is
`identity.id` (or the literal `anonymous`) concatenated with the
capability name. -/
theorem rateLimiter_exhaustion (limit : RateLimitConfig) (t1 now : Int)
    (rest : List Int) (fn i : String)
    (hlen : rest.length + 1 = limit.maxRequests)
    (hw : ∀ t ∈ rest, t - t1 ≤ limit.windowMs)
    (hnow : now - t1 ≤ limit.windowMs) :
    (RunCalls limit none (t1 :: rest)).1 = List.replicate limit.maxRequests true
    ∧ Enforce limit now (RunCalls limit none (t1 :: rest)).2
        = .error ⟨"RATE_LIMITED", 0, t1 + limit.windowMs - now⟩
    ∧ 0 ≤ t1 + limit.windowMs - now
    ∧ (now < t1 + limit.windowMs → 0 < t1 + limit.windowMs - now)
    ∧ BuildKey fn (some i) = i ++ ":" ++ fn
    ∧ BuildKey fn none = "anonymous:" ++ fn := by
  have hrun := runCalls_exhaust limit t1 rest hw (by omega)
  have hbucket : (RunCalls limit none (t1 :: rest)).2 = some ⟨limit.maxRequests, t1⟩ := by
    rw [hrun]
    simp [hlen]
  have hden := isAllowed_denied limit now ⟨limit.maxRequests, t1⟩
    (not_lt.mpr hnow) (le_refl _)
  refine ⟨by rw [hrun, hlen], ?_, by omega, by omega, rfl, rfl⟩
  rw [hbucket]
  simp only [Enforce, hden, Bool.false_eq_true, if_false, GetResetTime]
  have hmax : max (0 : Int) (t1 + limit.windowMs - now) = t1 + limit.windowMs - now :=
    max_eq_right (by omega)
  rw [hmax]

/-- C9 witness: limit 2/60000, two accepted calls at times 0 and 1, the
third call at time 50: RATE_LIMITED with `resetMs = 59950 > 0`. -/
theorem rateLimiter_exhaustion_witness :
    (RunCalls ⟨2, 60000⟩ none [0, 1]).1 = List.replicate 2 true
    ∧ Enforce ⟨2, 60000⟩ 50 (RunCalls ⟨2, 60000⟩ none [0, 1]).2
        = .error ⟨"RATE_LIMITED", 0, 59950⟩
    ∧ (0 : Int) ≤ 59950
    ∧ ((50 : Int) < 60000 → (0 : Int) < 59950)
    ∧ BuildKey "Math.Add" (some "u1") = "u1" ++ ":" ++ "Math.Add"
    ∧ BuildKey "Math.Add" none = "anonymous" ++ ":" ++ "Math.Add" := by
  have h := rateLimiter_exhaustion ⟨2, 60000⟩ 0 50 [1] "Math.Add" "u1"
    (by decide) (by decide) (by decide)
  exact ⟨h.1, h.2.1, by decide, fun _ => by decide, h.2.2.2.2.1, h.2.2.2.2.2⟩

/-! ## Claim C10 -/

/-- C10: `RateLimiter.IsAllowed` is effectful — every call that returns
`true` increments the stored bucket count, so `GetRemaining` (read at the
same instant) drops by exactly one; and `maxRequests` allowed `IsAllowed`
calls alone exhaust the quota: the next `IsAllowed` inside the window
returns `false` even though no execution followed. -/
theorem isAllowed_consumes_quota (limit : RateLimitConfig) (now : Int)
    (b : Option RateLimitBucket) (hwin : 0 ≤ limit.windowMs)
    (hallow : (IsAllowed limit now b).1 = true) :
    GetRemaining limit now (some (IsAllowed limit now b).2) + 1
      = GetRemaining limit now b
    ∧ (∀ (t1 : Int) (rest : List Int) (tN : Int),
        rest.length + 1 = limit.maxRequests →
        (∀ t ∈ rest, t - t1 ≤ limit.windowMs) → tN - t1 ≤ limit.windowMs →
        (RunCalls limit none (t1 :: rest)).1 = List.replicate limit.maxRequests true
        ∧ (IsAllowed limit tN (RunCalls limit none (t1 :: rest)).2).1 = false) := by
  constructor
  · match b with
    | none =>
      have hmax : 1 ≤ limit.maxRequests := by
        by_contra hc
        have : limit.maxRequests = 0 := by omega
        simp [IsAllowed, this] at hallow
      rw [isAllowed_fresh limit now hmax]
      simp [GetRemaining, not_lt.mpr hwin]
      omega
    | some bk =>
      by_cases hexp : now - bk.windowStart > limit.windowMs
      · have hmax : 1 ≤ limit.maxRequests := by
          by_contra hc
          have : limit.maxRequests = 0 := by omega
          simp [IsAllowed, this] at hallow
        have : IsAllowed limit now (some bk) = (true, ⟨1, now⟩) := by
          simp [IsAllowed, hexp, Nat.not_le.mpr hmax]
        rw [this]
        simp [GetRemaining, hexp, not_lt.mpr hwin]
        omega
      · have hcnt : bk.count < limit.maxRequests := by
          by_contra hc
          rw [isAllowed_denied limit now bk hexp (by omega)] at hallow
          simp at hallow
        rw [isAllowed_hit limit now bk hexp hcnt]
        simp [GetRemaining, hexp]
        omega
  · intro t1 rest tN hlen hw htN
    have hrun := runCalls_exhaust limit t1 rest hw (by omega)
    have hbucket : (RunCalls limit none (t1 :: rest)).2 = some ⟨limit.maxRequests, t1⟩ := by
      rw [hrun]
      simp [hlen]
    refine ⟨by rw [hrun, hlen], ?_⟩
    rw [hbucket, isAllowed_denied limit tN ⟨limit.maxRequests, t1⟩ (not_lt.mpr htN) (le_refl _)]

/-- C10 witness: limit 3/60000; an allowed call at time 5 on a fresh key
drops `GetRemaining` from 3 to 2, and three allowed calls alone exhaust
the quota. -/
theorem isAllowed_consumes_quota_witness :
    GetRemaining ⟨3, 60000⟩ 5 (some (IsAllowed ⟨3, 60000⟩ 5 none).2) + 1
      = GetRemaining ⟨3, 60000⟩ 5 none
    ∧ (RunCalls ⟨3, 60000⟩ none [0, 1, 2]).1 = List.replicate 3 true
    ∧ (IsAllowed ⟨3, 60000⟩ 10 (RunCalls ⟨3, 60000⟩ none [0, 1, 2]).2).1 = false := by
  have h := isAllowed_consumes_quota ⟨3, 60000⟩ 5 none (by decide) (by decide)
  have h2 := h.2 0 [1, 2] 10 (by decide) (by decide) (by decide)
  exact ⟨h.1, h2.1, h2.2⟩

/-! ## Claim C3 -/

/-- C3 counterexample: a payload signed at `t = 1000` and verified at
`now = 999` with the same secret satisfies `|now - t| ≤ TTL`, yet
`Verify` rejects it with `SIGNATURE_FROM_FUTURE` — the age check
`age < 0` runs before any HMAC is computed, so the concrete stand-in for
the HMAC primitive is irrelevant here. -/
theorem signer_future_skew_cx :
    Verify (fun a b => a ++ "|" ++ b) (some "k") 60000 999 "p"
        (Sign (fun a b => a ++ "|" ++ b) (some "k") 1000 "p").1 1000
      = .fromFuture
    ∧ VerifyResult.fromFuture ≠ VerifyResult.valid
    ∧ |(999 : Int) - 1000| ≤ 60000 := by
  refine ⟨rfl, by decide, by decide⟩

/-- C3 (amended): with a configured secret, a payload signed at `t`
verifies at `now` iff `0 ≤ now - t ≤ TTL` (a signature even slightly in
the verifier's future is rejected); and — given that the HMAC values of
the respective distinct messages differ — a tampered payload, a tampered
signature, or a different verifying secret each make verification
reject. -/
theorem signer_roundtrip (hmac : String → String → String) (s s' p p' sig' : String)
    (ttl t now : Int)
    (hcol : hmac s (signMessage t p') ≠ hmac s (signMessage t p))
    (hsig : sig' ≠ hmac s (signMessage t p))
    (hsec : hmac s' (signMessage t p) ≠ hmac s (signMessage t p)) :
    (Verify hmac (some s) ttl now p (Sign hmac (some s) t p).1 t = .valid
      ↔ 0 ≤ now - t ∧ now - t ≤ ttl)
    ∧ Verify hmac (some s) ttl now p' (Sign hmac (some s) t p).1 t ≠ .valid
    ∧ Verify hmac (some s) ttl now p sig' t ≠ .valid
    ∧ Verify hmac (some s') ttl now p (Sign hmac (some s) t p).1 t ≠ .valid := by
  have hsign : (Sign hmac (some s) t p).1 = hmac s (signMessage t p) := rfl
  rw [hsign]
  refine ⟨?_, ?_, ?_, ?_⟩
  · unfold Verify
    by_cases h1 : now - t > ttl
    · simp only [h1, if_true]
      constructor
      · intro h
        exact absurd h (by decide)
      · intro h
        omega
    · by_cases h2 : now - t < 0
      · simp only [h1, if_false, h2, if_true]
        constructor
        · intro h
          exact absurd h (by decide)
        · intro h
          omega
      · simp only [h1, if_false, h2, if_true]
        simp
        omega
  · unfold Verify
    by_cases h1 : now - t > ttl
    · simp [h1]
    · by_cases h2 : now - t < 0
      · simp [h1, h2]
      · simp [h1, h2, Ne.symm hcol]
  · unfold Verify
    by_cases h1 : now - t > ttl
    · simp [h1]
    · by_cases h2 : now - t < 0
      · simp [h1, h2]
      · simp [h1, h2, hsig]
  · unfold Verify
    by_cases h1 : now - t > ttl
    · simp [h1]
    · by_cases h2 : now - t < 0
      · simp [h1, h2]
      · simp [h1, h2, Ne.symm hsec]

/-- C3 witness: a concrete injective stand-in for the HMAC primitive,
secret `k`, payload `ab` signed at `t = 0`, verified at `now = 5` within
TTL 60000: verification accepts, and a one-byte payload change (`bb`),
a wrong signature, or secret `k2` each reject. -/
theorem signer_roundtrip_witness :
    (Verify (fun a b => a ++ "|" ++ b) (some "k") 60000 5 "ab"
        (Sign (fun a b => a ++ "|" ++ b) (some "k") 0 "ab").1 0 = .valid
      ↔ 0 ≤ (5 : Int) - 0 ∧ (5 : Int) - 0 ≤ 60000)
    ∧ Verify (fun a b => a ++ "|" ++ b) (some "k") 60000 5 "bb"
        (Sign (fun a b => a ++ "|" ++ b) (some "k") 0 "ab").1 0 ≠ .valid
    ∧ Verify (fun a b => a ++ "|" ++ b) (some "k") 60000 5 "ab" "xx" 0 ≠ .valid
    ∧ Verify (fun a b => a ++ "|" ++ b) (some "k2") 60000 5 "ab"
        (Sign (fun a b => a ++ "|" ++ b) (some "k") 0 "ab").1 0 ≠ .valid :=
  signer_roundtrip (fun a b => a ++ "|" ++ b) "k" "k2" "ab" "bb" "xx" 60000 0 5
    (by decide) (by decide) (by decide)

/-! ## Claim C6 -/

/-- C6 counterexample: with `startTime = 0`, `timeoutMs = 3000` and
`now = 3000`, the elapsed budget equals `timeoutMs`, so the claim's
`elapsed ≥ timeoutMs` condition holds — yet the source's strict
`elapsed > timeoutMs` gate lets the invocation proceed all the way to
the handler. -/
theorem budget_gate_boundary_cx :
    (InternalExecute ⟨false, false, 3000, none, .localTarget, .ok ⟨none, true, false⟩,
        .ok [], .ok []⟩ "f" none (some ⟨1, 20, 0, 3000⟩) true).handlerRan = true
    ∧ (InternalExecute ⟨false, false, 3000, none, .localTarget, .ok ⟨none, true, false⟩,
        .ok [], .ok []⟩ "f" none (some ⟨1, 20, 0, 3000⟩) true).outcomeTag = none
    ∧ 3000 - (deriveFrame false 3000 (some ⟨1, 20, 0, 3000⟩)).startTime
        = (deriveFrame false 3000 (some ⟨1, 20, 0, 3000⟩)).timeoutMs := by
  refine ⟨rfl, rfl, rfl⟩

/-- C6 (amended): for every invocation that reaches the budget gate (the
depth gate passed and the cache missed), if
`elapsed = now - frame.startTime` exceeds `frame.timeoutMs` strictly,
the invocation fails with `EXECUTION_TIMEOUT` and trace outcome `TIMEOUT`
before planning, resolution, or handler execution (at
`elapsed = timeoutMs` exactly, execution proceeds). -/
theorem budget_gate_timeout (env : ExecEnv) (fnName : String) (identity : Option Identity)
    (parentFrame : Option ExecutionFrame) (forceLocal : Bool) (frame : ExecutionFrame)
    (hframe : deriveFrame env.isRemoteNode env.now parentFrame = frame)
    (hdepth : frame.depth ≤ frame.maxDepth)
    (hcache : env.cached = none)
    (hlate : frame.timeoutMs < env.now - frame.startTime) :
    (InternalExecute env fnName identity parentFrame forceLocal).result
        = .error ⟨"EXECUTION_TIMEOUT", "Execution timed out before starting"⟩
    ∧ (InternalExecute env fnName identity parentFrame forceLocal).outcomeTag
        = some "TIMEOUT"
    ∧ (InternalExecute env fnName identity parentFrame forceLocal).planned = false
    ∧ (InternalExecute env fnName identity parentFrame forceLocal).resolved = false
    ∧ (InternalExecute env fnName identity parentFrame forceLocal).handlerRan = false
    ∧ (InternalExecute env fnName identity parentFrame forceLocal).remoteCalled = false := by
  have hout : InternalExecute env fnName identity parentFrame forceLocal
      = ⟨.error ⟨"EXECUTION_TIMEOUT", "Execution timed out before starting"⟩,
         some "TIMEOUT", false, false, false, false, false⟩ := by
    simp only [InternalExecute, hframe, hcache]
    rw [if_neg (Nat.not_lt.mpr hdepth), if_pos hlate]
  rw [hout]
  exact ⟨rfl, rfl, rfl, rfl, rfl, rfl⟩

/-- C6 witness: a nested call with inherited `startTime = 0`,
`timeoutMs = 3000`, entered at `now = 4000`: EXECUTION_TIMEOUT with
outcome TIMEOUT, nothing planned, resolved or run. -/
theorem budget_gate_timeout_witness :
    (InternalExecute ⟨false, false, 4000, none, .localTarget, .ok ⟨none, true, false⟩,
        .ok [], .ok []⟩ "f" none (some ⟨1, 20, 0, 3000⟩) true).result
      = .error ⟨"EXECUTION_TIMEOUT", "Execution timed out before starting"⟩
    ∧ (InternalExecute ⟨false, false, 4000, none, .localTarget, .ok ⟨none, true, false⟩,
        .ok [], .ok []⟩ "f" none (some ⟨1, 20, 0, 3000⟩) true).outcomeTag
      = some "TIMEOUT"
    ∧ (InternalExecute ⟨false, false, 4000, none, .localTarget, .ok ⟨none, true, false⟩,
        .ok [], .ok []⟩ "f" none (some ⟨1, 20, 0, 3000⟩) true).planned = false
    ∧ (InternalExecute ⟨false, false, 4000, none, .localTarget, .ok ⟨none, true, false⟩,
        .ok [], .ok []⟩ "f" none (some ⟨1, 20, 0, 3000⟩) true).resolved = false
    ∧ (InternalExecute ⟨false, false, 4000, none, .localTarget, .ok ⟨none, true, false⟩,
        .ok [], .ok []⟩ "f" none (some ⟨1, 20, 0, 3000⟩) true).handlerRan = false
    ∧ (InternalExecute ⟨false, false, 4000, none, .localTarget, .ok ⟨none, true, false⟩,
        .ok [], .ok []⟩ "f" none (some ⟨1, 20, 0, 3000⟩) true).remoteCalled = false :=
  budget_gate_timeout ⟨false, false, 4000, none, .localTarget, .ok ⟨none, true, false⟩,
      .ok [], .ok []⟩ "f" none (some ⟨1, 20, 0, 3000⟩) true ⟨2, 20, 0, 3000⟩
    rfl (by decide) rfl (by decide)

/-! ## Claim C7 -/

/-- C7: the root frame has depth 1, every derived child frame has the
parent's depth plus one, an invocation whose frame exceeds `maxDepth`
fails with `MAX_CALL_DEPTH_EXCEEDED` before the handler runs (and before
any remote dispatch), and whenever the handler does run,
`depth ≤ maxDepth` holds. -/
theorem depth_invariant (env : ExecEnv) (fnName : String) (identity : Option Identity)
    (parentFrame : Option ExecutionFrame) (forceLocal : Bool) :
    (deriveFrame env.isRemoteNode env.now none).depth = 1
    ∧ (∀ pf : ExecutionFrame,
        (deriveFrame env.isRemoteNode env.now (some pf)).depth = pf.depth + 1)
    ∧ ((deriveFrame env.isRemoteNode env.now parentFrame).maxDepth
          < (deriveFrame env.isRemoteNode env.now parentFrame).depth →
        (InternalExecute env fnName identity parentFrame forceLocal).result
            = .error ⟨"MAX_CALL_DEPTH_EXCEEDED", "Recursion depth exceeded"⟩
        ∧ (InternalExecute env fnName identity parentFrame forceLocal).handlerRan = false
        ∧ (InternalExecute env fnName identity parentFrame forceLocal).remoteCalled = false)
    ∧ ((InternalExecute env fnName identity parentFrame forceLocal).handlerRan = true →
        (deriveFrame env.isRemoteNode env.now parentFrame).depth
          ≤ (deriveFrame env.isRemoteNode env.now parentFrame).maxDepth) := by
  have hgate : ∀ hgt : (deriveFrame env.isRemoteNode env.now parentFrame).maxDepth
        < (deriveFrame env.isRemoteNode env.now parentFrame).depth,
      InternalExecute env fnName identity parentFrame forceLocal
        = ⟨.error ⟨"MAX_CALL_DEPTH_EXCEEDED", "Recursion depth exceeded"⟩,
           some "FAILURE", false, false, false, false, false⟩ := by
    intro hgt
    simp only [InternalExecute]
    rw [if_pos hgt]
  refine ⟨rfl, fun pf => rfl, ?_, ?_⟩
  · intro hgt
    rw [hgate hgt]
    exact ⟨rfl, rfl, rfl⟩
  · intro hran
    by_cases hgt : (deriveFrame env.isRemoteNode env.now parentFrame).maxDepth
        < (deriveFrame env.isRemoteNode env.now parentFrame).depth
    · rw [hgate hgt] at hran
      exact absurd hran (by simp)
    · omega

/-- C7 witness: a root frame at depth 1; a parent at depth 20 derives
depth 21, which with `maxDepth = 20` fails MAX_CALL_DEPTH_EXCEEDED with
no handler run. -/
theorem depth_invariant_witness :
    (deriveFrame false 0 none).depth = 1
    ∧ (deriveFrame false 0 (some ⟨20, 20, 0, 3000⟩)).depth = 20 + 1
    ∧ (InternalExecute ⟨false, false, 0, none, .localTarget, .ok ⟨none, true, false⟩,
        .ok [], .ok []⟩ "f" none (some ⟨20, 20, 0, 3000⟩) true).result
      = .error ⟨"MAX_CALL_DEPTH_EXCEEDED", "Recursion depth exceeded"⟩
    ∧ (InternalExecute ⟨false, false, 0, none, .localTarget, .ok ⟨none, true, false⟩,
        .ok [], .ok []⟩ "f" none (some ⟨20, 20, 0, 3000⟩) true).handlerRan = false := by
  have h := depth_invariant ⟨false, false, 0, none, .localTarget, .ok ⟨none, true, false⟩,
      .ok [], .ok []⟩ "f" none (some ⟨20, 20, 0, 3000⟩) true
  have h3 := h.2.2.1 (by decide)
  exact ⟨h.1, h.2.1 ⟨20, 20, 0, 3000⟩, h3.1, h3.2.1⟩

/-! ## Claim C8 -/

/-- C8 counterexample: a resolved source that declares an allow set that
is empty (`permissions: allow []` — exactly what the Registry attaches
to bytecode sources) admits an absent identity: `PolicyEngine.Enforce`
succeeds instead of failing FORBIDDEN, because the source only enforces
when `allow.length > 0`. -/
theorem policy_empty_allow_cx :
    PolicyEnforce none ⟨some ⟨[]⟩, true, false⟩ = .ok ()
    ∧ PolicyEnforce (some ⟨"u", none⟩) ⟨some ⟨[]⟩, true, false⟩ = .ok () := by
  exact ⟨rfl, rfl⟩

/-- C8 (amended): when the resolved source declares a non-empty allow
set, an absent identity, a missing (or empty) role, or a role outside
the allow set makes `PolicyEngine.Enforce` throw FORBIDDEN; on the local
path this happens before the handler runs; and a FORBIDDEN failure is
non-retryable, so it consumes no retry budget (exactly one attempt). -/
theorem policy_forbidden (identity : Option Identity) (perms : List String)
    (src : CodeSource) (hsrc : src.permissions = some ⟨perms⟩) (hne : perms ≠ [])
    (hviol : identity = none
      ∨ ∃ idy, identity = some idy
          ∧ (isFalsyRole idy.role = true ∨ perms.contains (idy.role.getD "") = false)) :
    (∃ e : CbError, PolicyEnforce identity src = .error e ∧ e.code = "FORBIDDEN")
    ∧ (∀ (env : ExecEnv) (fnName : String) (parentFrame : Option ExecutionFrame)
          (frame : ExecutionFrame),
        deriveFrame env.isRemoteNode env.now parentFrame = frame →
        frame.depth ≤ frame.maxDepth → env.cached = none →
        env.now - frame.startTime ≤ frame.timeoutMs →
        env.source = .ok src →
        (InternalExecute env fnName identity parentFrame true).handlerRan = false
        ∧ ∃ e : CbError,
            (InternalExecute env fnName identity parentFrame true).result = .error e
            ∧ e.code = "FORBIDDEN")
    ∧ (∀ (retries : Nat) (run : Nat → Except CbError JObj) (e : CbError),
        run 1 = .error e → e.code = "FORBIDDEN" →
        ExecuteModel retries run = (.error e, 1)) := by
  have hlen : 0 < perms.length := List.length_pos.mpr hne
  have hpol : ∃ e : CbError, PolicyEnforce identity src = .error e ∧ e.code = "FORBIDDEN" := by
    rcases hviol with rfl | ⟨idy, rfl, hrole⟩
    · exact ⟨⟨"FORBIDDEN", "Authentication required"⟩, by simp [PolicyEnforce, hsrc, hlen], rfl⟩
    · by_cases hf : isFalsyRole idy.role = true
      · exact ⟨⟨"FORBIDDEN", "Identity has no role"⟩,
          by simp [PolicyEnforce, hsrc, hlen, hf], rfl⟩
      · rcases hrole with hf' | hnotin
        · exact absurd hf' hf
        · have hmem : idy.role.getD "" ∉ perms := by simpa using hnotin
          exact ⟨⟨"FORBIDDEN", "Role is not allowed"⟩,
            by simp [PolicyEnforce, hsrc, hlen, hf, hmem], rfl⟩
  refine ⟨hpol, ?_, ?_⟩
  · intro env fnName parentFrame frame hframe hdepth hcache helapsed hsource
    obtain ⟨e, hpe, hcode⟩ := hpol
    have hout : InternalExecute env fnName identity parentFrame true
        = ⟨.error e, none, !(true || env.isRemoteNode), true, true, false, false⟩ := by
      simp only [InternalExecute, hframe, hcache, hsource, hpe, Bool.true_or]
      rw [if_neg (Nat.not_lt.mpr hdepth), if_neg (not_lt.mpr helapsed)]
      rfl
    rw [hout]
    exact ⟨rfl, e, rfl, hcode⟩
  · intro retries run e hrun hcode
    exact executeModel_terminal retries run e hrun (by rw [hcode]; rfl)

/-- C8 witness: identity with role `guest` against allow set `[admin]`:
FORBIDDEN from the policy engine, no handler run on the local path, and
a FORBIDDEN first attempt with 2 retries available still makes exactly
one attempt. -/
theorem policy_forbidden_witness :
    (∃ e : CbError, PolicyEnforce (some ⟨"u", some "guest"⟩)
        ⟨some ⟨["admin"]⟩, true, false⟩ = .error e ∧ e.code = "FORBIDDEN")
    ∧ (InternalExecute ⟨false, false, 0, none, .localTarget,
        .ok ⟨some ⟨["admin"]⟩, true, false⟩, .ok [], .ok []⟩ "f"
        (some ⟨"u", some "guest"⟩) none true).handlerRan = false
    ∧ ExecuteModel 2 (fun _ => (.error ⟨"FORBIDDEN", "denied"⟩ : Except CbError JObj))
        = (.error ⟨"FORBIDDEN", "denied"⟩, 1) := by
  have h := policy_forbidden (some ⟨"u", some "guest"⟩) ["admin"]
    ⟨some ⟨["admin"]⟩, true, false⟩ rfl (by decide)
    (Or.inr ⟨⟨"u", some "guest"⟩, rfl, Or.inr (by decide)⟩)
  refine ⟨h.1, ?_, ?_⟩
  · exact (h.2.1 ⟨false, false, 0, none, .localTarget,
      .ok ⟨some ⟨["admin"]⟩, true, false⟩, .ok [], .ok []⟩ "f" none ⟨1, 20, 0, 3000⟩
      rfl (by decide) rfl (by decide) rfl).1
  · exact h.2.2 2 (fun _ => .error ⟨"FORBIDDEN", "denied"⟩) ⟨"FORBIDDEN", "denied"⟩ rfl rfl

/-! ## Claim C2 -/

/-- C2: in production mode, at the root frame, a cache hit returns
`\x7b ...cachedResult, trace: [currentTrace] \x7d` — the internal trace
tree is present on the returned value, contradicting both the claim and
the source's own comment that traces must never leak in production
(the redaction block only guards the local execution path, which indeed
returns the bare handler result). -/
theorem production_cache_hit_leaks_trace :
    (∃ r : JObj,
      (InternalExecute ⟨false, true, 0, some [("value", .prim "42")], .localTarget,
          .ok ⟨none, true, false⟩, .ok [], .ok []⟩ "Price.Cached" none none false).result
        = .ok r
      ∧ objHas r "trace" = true)
    ∧ (∃ r : JObj,
      (InternalExecute ⟨false, true, 0, none, .localTarget, .ok ⟨none, true, false⟩,
          .ok [("value", .prim "42")], .ok []⟩ "Math.Add" none none false).result
        = .ok r
      ∧ objHas r "trace" = false ∧ objHas r "_trace" = false) := by
  exact ⟨⟨_, rfl, rfl⟩, ⟨_, rfl, rfl, rfl⟩⟩

end Chainbox
